import Mathlib

/-!
Verification of the path-generation and color-filtering logic of
`src/vortex.py` (Vortex Plot).  The script draws a "modulus circle":
points `1 .. modulus` on a circle, connected by directed arcs that follow
the digital-root recurrence `next = digital_root(current * multiplier, modulus)`
(or the modular inverse of the multiplier in the backward direction).

The rendering calls (matplotlib annotate/plot/text) are treated as an
external drawing collaborator; the embedding keeps exactly the data they
receive: the ordered list of directed edges `(from_point, to_point)` of each
path, and the palette of arc-color names.  Fallible operations (Python's
`pow(m, -1, mod)` raising `ValueError`, `list.remove` raising `ValueError`)
are embedded with `Option`, `none` standing for the raised exception.
-/

set_option maxRecDepth 20000

/-- Digital root of `n` with modulus `mod`, from `digital_root` in
`src/vortex.py`: `(n - 1) % mod + 1 if n != 0 else 0`. -/
def digital_root (n : Nat) (mod : Nat) : Nat :=
  if n ≠ 0 then (n - 1) % mod + 1 else 0

/-- Modelled from the spec: Python's built-in `pow(a, -1, m)` used at line 150
of `src/vortex.py` is not part of this repository.  It returns the unique
inverse of `a` modulo `m` in `[0, m)` when it exists, and raises `ValueError`
otherwise (also when `m = 0`); here the result is found by bounded search and
the exception is `none`. -/
def modInverse (a m : Nat) : Option Nat :=
  (List.range m).find? fun x => a * x % m == 1 % m

/-- One step of the recurrence of `plot_path` (src/vortex.py lines 147-151):
forward multiplies by `multiplier`, backward by its modular inverse; `none`
is the propagated `ValueError` of `pow(multiplier, -1, modulus)`. -/
def recurrence_step (multiplier modulus : Nat) (direction : Bool)
    (current : Nat) : Option Nat :=
  if direction then
    some (digital_root (current * multiplier) modulus)
  else
    match modInverse multiplier modulus with
    | some inv => some (digital_root (current * inv) modulus)
    | none => none

/-- The loop of `plot_path` (src/vortex.py lines 144-163) with `fuel`
remaining iterations: emit edge `(current, next)` each iteration and stop
early when `next == start` — `start` being the *outer* parameter of
`plot_modulus_circle` captured by the closure, not the path's own seed
`_start`.  Returns the list of emitted edges; the visited set of the source
is exactly the set of first components of the emitted edges. -/
def plot_path_go (start multiplier modulus : Nat) (direction : Bool) :
    Nat → Nat → Option (List (Nat × Nat))
  | 0, _ => some []
  | fuel + 1, current =>
    match recurrence_step multiplier modulus direction current with
    | none => none
    | some next =>
      if next = start then
        some [(current, next)]
      else
        Option.map (fun rest => (current, next) :: rest)
          (plot_path_go start multiplier modulus direction fuel next)

/-- `plot_path(_start, color)` of `src/vortex.py` (lines 144-163), color
dropped (it only feeds the drawing collaborator): the edges produced from
seed `path_start`, with the captured outer `start`, `multiplier`, `modulus`,
`iterations` and `direction` of `plot_modulus_circle`. -/
def plot_path (start multiplier modulus iterations : Nat) (direction : Bool)
    (path_start : Nat) : Option (List (Nat × Nat)) :=
  plot_path_go start multiplier modulus direction iterations path_start

/-- All points that have appeared as a source (`from_point`) of an emitted
edge: the `visited` set of `src/vortex.py` (line 160), which adds
`current_number` exactly once per emitted edge. -/
def from_points (paths : List (List (Nat × Nat))) : List Nat :=
  (paths.flatten).map Prod.fst

/-- The recursive-coverage loop of `plot_modulus_circle`
(src/vortex.py lines 170-176): for each `point` of the remaining range, if it
is not yet a source point of an earlier path and is not `modulus` itself,
seed a new path from it, accumulating the generated paths in order. -/
def recurse_paths (start multiplier modulus iterations : Nat)
    (direction : Bool) :
    List Nat → List (List (Nat × Nat)) → Option (List (List (Nat × Nat)))
  | [], acc => some acc
  | point :: rest, acc =>
    if point ∉ from_points acc ∧ point ≠ modulus then
      match plot_path start multiplier modulus iterations direction point with
      | none => none
      | some edges =>
        recurse_paths start multiplier modulus iterations direction rest
          (acc ++ [edges])
    else
      recurse_paths start multiplier modulus iterations direction rest acc

/-- The hardcoded list of 147 named colors of `plot_modulus_circle`
(src/vortex.py lines 107-138), in source order. -/
def color_list : List String := [
  "aliceblue", "antiquewhite", "aqua", "aquamarine", "azure",
  "beige", "bisque", "black", "blanchedalmond", "blue",
  "blueviolet", "brown", "burlywood", "cadetblue", "chartreuse",
  "chocolate", "coral", "cornflowerblue", "cornsilk", "crimson",
  "cyan", "darkblue", "darkcyan", "darkgoldenrod", "darkgray",
  "darkgreen", "darkgrey", "darkkhaki", "darkmagenta", "darkolivegreen",
  "darkorange", "darkorchid", "darkred", "darksalmon", "darkseagreen",
  "darkslateblue", "darkslategray", "darkslategrey", "darkturquoise", "darkviolet",
  "deeppink", "deepskyblue", "dimgray", "dimgrey", "dodgerblue",
  "firebrick", "floralwhite", "forestgreen", "fuchsia", "gainsboro",
  "ghostwhite", "gold", "goldenrod", "gray", "green",
  "greenyellow", "grey", "honeydew", "hotpink", "indianred",
  "indigo", "ivory", "khaki", "lavender", "lavenderblush",
  "lawngreen", "lemonchiffon", "lightblue", "lightcoral", "lightcyan",
  "lightgoldenrodyellow", "lightgray", "lightgreen", "lightgrey", "lightpink",
  "lightsalmon", "lightseagreen", "lightskyblue", "lightslategray", "lightslategrey",
  "lightsteelblue", "lightyellow", "lime", "limegreen", "linen",
  "magenta", "maroon", "mediumaquamarine", "mediumblue", "mediumorchid",
  "mediumpurple", "mediumseagreen", "mediumslateblue", "mediumspringgreen", "mediumturquoise",
  "mediumvioletred", "midnightblue", "mintcream", "mistyrose", "moccasin",
  "navajowhite", "navy", "oldlace", "olive", "olivedrab",
  "orange", "orangered", "orchid", "palegoldenrod", "palegreen",
  "paleturquoise", "palevioletred", "papayawhip", "peachpuff", "peru",
  "pink", "plum", "powderblue", "purple", "red",
  "rosybrown", "royalblue", "saddlebrown", "salmon", "sandybrown",
  "seagreen", "seashell", "sienna", "silver", "skyblue",
  "slateblue", "slategray", "slategrey", "snow", "springgreen",
  "steelblue", "tan", "teal", "thistle", "tomato",
  "turquoise", "violet", "wheat", "white", "whitesmoke",
  "yellow", "yellowgreen"]

/-- Modelled from the spec: the RGB resolution of named colors performed by
`matplotlib.colors.to_rgb` (an external collaborator of this repository,
spec section 1 and 4.1), as 8-bit CSS component triples for the names of
`color_list`. -/
def css_colors : List (String × (Nat × Nat × Nat)) := [
  ("aliceblue", (240, 248, 255)), ("antiquewhite", (250, 235, 215)),
  ("aqua", (0, 255, 255)), ("aquamarine", (127, 255, 212)),
  ("azure", (240, 255, 255)), ("beige", (245, 245, 220)),
  ("bisque", (255, 228, 196)), ("black", (0, 0, 0)),
  ("blanchedalmond", (255, 235, 205)), ("blue", (0, 0, 255)),
  ("blueviolet", (138, 43, 226)), ("brown", (165, 42, 42)),
  ("burlywood", (222, 184, 135)), ("cadetblue", (95, 158, 160)),
  ("chartreuse", (127, 255, 0)), ("chocolate", (210, 105, 30)),
  ("coral", (255, 127, 80)), ("cornflowerblue", (100, 149, 237)),
  ("cornsilk", (255, 248, 220)), ("crimson", (220, 20, 60)),
  ("cyan", (0, 255, 255)), ("darkblue", (0, 0, 139)),
  ("darkcyan", (0, 139, 139)), ("darkgoldenrod", (184, 134, 11)),
  ("darkgray", (169, 169, 169)), ("darkgreen", (0, 100, 0)),
  ("darkgrey", (169, 169, 169)), ("darkkhaki", (189, 183, 107)),
  ("darkmagenta", (139, 0, 139)), ("darkolivegreen", (85, 107, 47)),
  ("darkorange", (255, 140, 0)), ("darkorchid", (153, 50, 204)),
  ("darkred", (139, 0, 0)), ("darksalmon", (233, 150, 122)),
  ("darkseagreen", (143, 188, 143)), ("darkslateblue", (72, 61, 139)),
  ("darkslategray", (47, 79, 79)), ("darkslategrey", (47, 79, 79)),
  ("darkturquoise", (0, 206, 209)), ("darkviolet", (148, 0, 211)),
  ("deeppink", (255, 20, 147)), ("deepskyblue", (0, 191, 255)),
  ("dimgray", (105, 105, 105)), ("dimgrey", (105, 105, 105)),
  ("dodgerblue", (30, 144, 255)), ("firebrick", (178, 34, 34)),
  ("floralwhite", (255, 250, 240)), ("forestgreen", (34, 139, 34)),
  ("fuchsia", (255, 0, 255)), ("gainsboro", (220, 220, 220)),
  ("ghostwhite", (248, 248, 255)), ("gold", (255, 215, 0)),
  ("goldenrod", (218, 165, 32)), ("gray", (128, 128, 128)),
  ("green", (0, 128, 0)), ("greenyellow", (173, 255, 47)),
  ("grey", (128, 128, 128)), ("honeydew", (240, 255, 240)),
  ("hotpink", (255, 105, 180)), ("indianred", (205, 92, 92)),
  ("indigo", (75, 0, 130)), ("ivory", (255, 255, 240)),
  ("khaki", (240, 230, 140)), ("lavender", (230, 230, 250)),
  ("lavenderblush", (255, 240, 245)), ("lawngreen", (124, 252, 0)),
  ("lemonchiffon", (255, 250, 205)), ("lightblue", (173, 216, 230)),
  ("lightcoral", (240, 128, 128)), ("lightcyan", (224, 255, 255)),
  ("lightgoldenrodyellow", (250, 250, 210)), ("lightgray", (211, 211, 211)),
  ("lightgreen", (144, 238, 144)), ("lightgrey", (211, 211, 211)),
  ("lightpink", (255, 182, 193)), ("lightsalmon", (255, 160, 122)),
  ("lightseagreen", (32, 178, 170)), ("lightskyblue", (135, 206, 250)),
  ("lightslategray", (119, 136, 153)), ("lightslategrey", (119, 136, 153)),
  ("lightsteelblue", (176, 196, 222)), ("lightyellow", (255, 255, 224)),
  ("lime", (0, 255, 0)), ("limegreen", (50, 205, 50)),
  ("linen", (250, 240, 230)), ("magenta", (255, 0, 255)),
  ("maroon", (128, 0, 0)), ("mediumaquamarine", (102, 205, 170)),
  ("mediumblue", (0, 0, 205)), ("mediumorchid", (186, 85, 211)),
  ("mediumpurple", (147, 112, 219)), ("mediumseagreen", (60, 179, 113)),
  ("mediumslateblue", (123, 104, 238)), ("mediumspringgreen", (0, 250, 154)),
  ("mediumturquoise", (72, 209, 204)), ("mediumvioletred", (199, 21, 133)),
  ("midnightblue", (25, 25, 112)), ("mintcream", (245, 255, 250)),
  ("mistyrose", (255, 228, 225)), ("moccasin", (255, 228, 181)),
  ("navajowhite", (255, 222, 173)), ("navy", (0, 0, 128)),
  ("oldlace", (253, 245, 230)), ("olive", (128, 128, 0)),
  ("olivedrab", (107, 142, 35)), ("orange", (255, 165, 0)),
  ("orangered", (255, 69, 0)), ("orchid", (218, 112, 214)),
  ("palegoldenrod", (238, 232, 170)), ("palegreen", (152, 251, 152)),
  ("paleturquoise", (175, 238, 238)), ("palevioletred", (219, 112, 147)),
  ("papayawhip", (255, 239, 213)), ("peachpuff", (255, 218, 185)),
  ("peru", (205, 133, 63)), ("pink", (255, 192, 203)),
  ("plum", (221, 160, 221)), ("powderblue", (176, 224, 230)),
  ("purple", (128, 0, 128)), ("red", (255, 0, 0)),
  ("rosybrown", (188, 143, 143)), ("royalblue", (65, 105, 225)),
  ("saddlebrown", (139, 69, 19)), ("salmon", (250, 128, 114)),
  ("sandybrown", (244, 164, 96)), ("seagreen", (46, 139, 87)),
  ("seashell", (255, 245, 238)), ("sienna", (160, 82, 45)),
  ("silver", (192, 192, 192)), ("skyblue", (135, 206, 235)),
  ("slateblue", (106, 90, 205)), ("slategray", (112, 128, 144)),
  ("slategrey", (112, 128, 144)), ("snow", (255, 250, 250)),
  ("springgreen", (0, 255, 127)), ("steelblue", (70, 130, 180)),
  ("tan", (210, 180, 140)), ("teal", (0, 128, 128)),
  ("thistle", (216, 191, 216)), ("tomato", (255, 99, 71)),
  ("turquoise", (64, 224, 208)), ("violet", (238, 130, 238)),
  ("wheat", (245, 222, 179)), ("white", (255, 255, 255)),
  ("whitesmoke", (245, 245, 245)), ("yellow", (255, 255, 0)),
  ("yellowgreen", (154, 205, 50))]

/-- Modelled from the spec: `mcolors.to_rgb(color_name)` (src/vortex.py
line 28) maps a color name to an RGB triple in `[0,1]^3`, each component an
8-bit CSS value divided by 255; here the raw 8-bit components are returned
and the division by 255 is folded into the exact scaling of `luminance`. -/
def to_rgb (name : String) : Nat × Nat × Nat :=
  match css_colors.lookup name with
  | some rgb => rgb
  | none => (0, 0, 0)

/-- Perceived luminance `0.2126*R + 0.7152*G + 0.0722*B` (ITU-R BT.709)
computed at src/vortex.py line 31 over components in `[0,1]`.  Python's
float value is embedded exactly, scaled by `2550000 = 10^4 * 255` (the
common denominator of the coefficients and of the 8-bit components), so
`luminance name` is `2550000` times the luminance of the source; for every
color of `color_list` the float comparison against the thresholds and this
exact integer comparison classify identically, no value lying on a
threshold. -/
def luminance (name : String) : Nat :=
  2126 * (to_rgb name).1 + 7152 * (to_rgb name).2.1
    + 722 * (to_rgb name).2.2

/-- `filter_colors(color_list, low_threshold, high_threshold)` of
`src/vortex.py` (lines 12-37): the loop appends each color whose luminance
satisfies `low_threshold <= luminance <= high_threshold` to an initially
empty list, preserving input order.  Thresholds carry the same `2550000`
scaling as `luminance`: the defaults `0.3` and `0.7` are `765000` and
`1785000`. -/
def filter_colors (colorList : List String)
    (low_threshold high_threshold : Nat) : List String :=
  colorList.foldl
    (fun filtered color_name =>
      if low_threshold ≤ luminance color_name ∧
          luminance color_name ≤ high_threshold then
        filtered ++ [color_name]
      else filtered)
    []

/-- Python's `list.remove(x)` (src/vortex.py lines 140-141): removes the
first occurrence of `x`, raising `ValueError` (here `none`) when `x` is not
an element. -/
def list_remove (l : List String) (x : String) : Option (List String) :=
  if x ∈ l then some (l.erase x) else none

/-- The arc-palette setup of `plot_modulus_circle` (src/vortex.py lines
139-142): remove the background color, then the text color, from the
hardcoded color list, and filter the remainder with the default luminance
thresholds `0.3` and `0.7` (scaled: `765000` and `1785000`).  `none` is a
propagated `ValueError` of `list.remove`. -/
def setup_colors (background_color text_color : String) :
    Option (List String) :=
  match list_remove color_list background_color with
  | none => none
  | some l1 =>
    match list_remove l1 text_color with
    | none => none
    | some l2 => some (filter_colors l2 765000 1785000)

/-- The path-generating behaviour of `plot_modulus_circle` (src/vortex.py
lines 54-184): set up the arc palette (raising on an unlisted background or
text color, before any path exists), draw one path from `start`, and when
`recursive` is set seed further paths from the unvisited points of
`[1, modulus]` except `modulus` itself.  `random.choice` on an empty palette
would raise `IndexError` (the `isEmpty` guard); the chosen colors themselves
only feed the drawing collaborator and are dropped.  Returns the generated
paths in order. -/
def plot_modulus_circle (background_color text_color : String)
    (start multiplier modulus iterations : Nat)
    (direction recursive : Bool) : Option (List (List (Nat × Nat))) :=
  match setup_colors background_color text_color with
  | none => none
  | some palette =>
    if palette.isEmpty then none
    else
      match plot_path start multiplier modulus iterations direction start with
      | none => none
      | some first =>
        if recursive then
          recurse_paths start multiplier modulus iterations direction
            (List.range' 1 modulus) [first]
        else
          some [first]

/-- The 18 edges of the path seeded at point 3 under the default parameters
`start=2, multiplier=2, modulus=9, iterations=18` of `plot_modulus_circle`:
the cycle `3 → 6 → 3` is re-drawn until the iteration budget runs out. -/
def C1_cex_edges : List (Nat × Nat) :=
  [(3, 6), (6, 3), (3, 6), (6, 3), (3, 6), (6, 3), (3, 6), (6, 3),
   (3, 6), (6, 3), (3, 6), (6, 3), (3, 6), (6, 3), (3, 6), (6, 3),
   (3, 6), (6, 3)]

/-- Range of the digital root: a positive input with a positive modulus
lands in `[1, mod]`. -/
theorem digital_root_bounds (n mod : Nat) (hn : 1 ≤ n) (hm : 1 ≤ mod) :
    1 ≤ digital_root n mod ∧ digital_root n mod ≤ mod := by
  have hne : n ≠ 0 := by omega
  have hlt := Nat.mod_lt (n - 1) (show 0 < mod by omega)
  simp only [digital_root, hne, ne_eq, not_false_eq_true, if_true]
  omega

/-- Claim C4: for every `n ≥ 1` and `mod ≥ 1`, `digital_root n mod` lies in
`[1, mod]`; `digital_root 0 mod = 0`; at the boundary
`digital_root mod mod = mod` (a full multiple of the modulus maps to the
modulus itself, not 0); and the spec's examples
`digital_root 10 9 = 1`, `digital_root 18 9 = 9`, `digital_root 9 9 = 9`
hold. -/
theorem C4_digital_root_range (n mod : Nat) (hn : 1 ≤ n) (hm : 1 ≤ mod) :
    (1 ≤ digital_root n mod ∧ digital_root n mod ≤ mod) ∧
    digital_root 0 mod = 0 ∧
    digital_root mod mod = mod ∧
    digital_root 10 9 = 1 ∧ digital_root 18 9 = 9 ∧ digital_root 9 9 = 9 := by
  refine ⟨digital_root_bounds n mod hn hm, by simp [digital_root], ?_,
    by decide, by decide, by decide⟩
  have hne : mod ≠ 0 := by omega
  simp only [digital_root, hne, ne_eq, not_false_eq_true, if_true]
  rw [Nat.mod_eq_of_lt (by omega)]
  omega

/-- Witness for C4 at `n = 10`, `mod = 9`. -/
theorem C4_witness :
    (1 ≤ digital_root 10 9 ∧ digital_root 10 9 ≤ 9) ∧
    digital_root 0 9 = 0 ∧
    digital_root 9 9 = 9 ∧
    digital_root 10 9 = 1 ∧ digital_root 18 9 = 9 ∧ digital_root 9 9 = 9 :=
  C4_digital_root_range 10 9 (by decide) (by decide)

/-- Claim C3: `generate_path(start=1, multiplier=7, modulus=100,
iterations=100, direction=forward)` emits exactly the edges
`1 → 7 → 49 → 43 → 1`; every `to_point` equals
`digital_root(from_point * 7, 100)`; and the sequence stops on the first
return to point 1 (its final edge enters 1, no earlier edge does, and only
4 of the 100 allowed iterations are used). -/
theorem C3_generate_path_example :
    plot_path 1 7 100 100 true 1 = some [(1, 7), (7, 49), (49, 43), (43, 1)] ∧
    (∀ e ∈ ([(1, 7), (7, 49), (49, 43), (43, 1)] : List (Nat × Nat)),
      e.2 = digital_root (e.1 * 7) 100) ∧
    ([(1, 7), (7, 49), (49, 43), (43, 1)] : List (Nat × Nat)).length ≤ 100 ∧
    ([(1, 7), (7, 49), (49, 43), (43, 1)] : List (Nat × Nat)).getLast? =
      some (43, 1) ∧
    (∀ e ∈ ([(1, 7), (7, 49), (49, 43), (43, 1)] : List (Nat × Nat)).dropLast,
      e.2 ≠ 1) := by
  decide

/-- Structure of one generated path (src/vortex.py lines 144-163): at most
`fuel` edges are emitted; if the loop broke early then the edge just
emitted enters the captured outer `start`; and no edge before the final
one ever enters `start` (so the break happens exactly at the first step
whose `next` is `start`). -/
theorem plot_path_go_spec (start multiplier modulus : Nat)
    (direction : Bool) :
    ∀ (fuel current : Nat) (es : List (Nat × Nat)),
      plot_path_go start multiplier modulus direction fuel current = some es →
      es.length ≤ fuel ∧
      (es.length < fuel → ∃ l e, es = l ++ [e] ∧ e.2 = start) ∧
      (∀ e ∈ es.dropLast, e.2 ≠ start) := by
  intro fuel
  induction fuel with
  | zero =>
    intro current es h
    simp only [plot_path_go, Option.some.injEq] at h
    subst h
    simp
  | succ k ih =>
    intro current es h
    unfold plot_path_go at h
    cases hstep : recurrence_step multiplier modulus direction current with
    | none =>
      rw [hstep] at h
      simp at h
    | some next =>
      rw [hstep] at h
      dsimp only at h
      by_cases hns : next = start
      · rw [if_pos hns] at h
        simp only [Option.some.injEq] at h
        subst h
        refine ⟨by simp, ?_, by simp⟩
        intro _
        exact ⟨[], (current, next), by simp, hns⟩
      · rw [if_neg hns] at h
        cases hgo : plot_path_go start multiplier modulus direction k next with
        | none =>
          rw [hgo] at h
          simp at h
        | some rest =>
          rw [hgo] at h
          simp only [Option.map_some', Option.some.injEq] at h
          subst h
          obtain ⟨ih1, ih2, ih3⟩ := ih next rest hgo
          refine ⟨by simpa using ih1, ?_, ?_⟩
          · intro hlt
            have hr : rest.length < k := by
              simpa using Nat.lt_of_succ_lt_succ hlt
            obtain ⟨l, e, hre, he2⟩ := ih2 hr
            exact ⟨(current, next) :: l, e, by simp [hre], he2⟩
          · intro e he
            cases rest with
            | nil => simp at he
            | cons b t =>
              rw [List.dropLast_cons_of_ne_nil (by simp)] at he
              rcases List.mem_cons.mp he with h1 | h2
              · subst h1
                exact hns
              · exact ih3 e h2

/-- Claim C1 (amended): a path generated by `plot_path` stops before
exhausting the iteration budget if and only if a step produces a next point
equal to the `start` argument of the enclosing `plot_modulus_circle` call —
the origin of the *initial* path.  Recursively seeded paths compare against
this same outer `start`, not against their own seed (`_start`): the break
condition at src/vortex.py line 161 reads the captured `start`. -/
theorem C1_path_stops_at_outer_start
    (start multiplier modulus iterations : Nat) (direction : Bool)
    (path_start : Nat) (es : List (Nat × Nat))
    (h : plot_path start multiplier modulus iterations direction path_start =
      some es) :
    es.length ≤ iterations ∧
    (es.length < iterations → ∃ l e, es = l ++ [e] ∧ e.2 = start) ∧
    (∀ e ∈ es.dropLast, e.2 ≠ start) :=
  plot_path_go_spec start multiplier modulus direction iterations path_start
    es h

/-- Counterexample to claim C1 as stated: under the default parameters
(outer `start = 2`, `multiplier = 2`, `modulus = 9`, `iterations = 18`) the
recursively seeded path with origin `p = 3` contains the edge `(6, 3)` — a
step produced the path's own origin — yet the path did not stop there: it
exhausted all 18 iterations, because the code compares `next` against the
outer `start` (2), which this path never reaches. -/
theorem C1_counterexample :
    plot_path 2 2 9 18 true 3 = some C1_cex_edges ∧
    ¬ (C1_cex_edges.length < 18 ↔ ∃ e ∈ C1_cex_edges, e.2 = 3) := by
  decide

/-- Witness for C1 on the initial path of the default configuration. -/
theorem C1_witness :
    ([(2, 4), (4, 8), (8, 7), (7, 5), (5, 1), (1, 2)] :
      List (Nat × Nat)).length ≤ 18 ∧
    (([(2, 4), (4, 8), (8, 7), (7, 5), (5, 1), (1, 2)] :
        List (Nat × Nat)).length < 18 →
      ∃ l e, ([(2, 4), (4, 8), (8, 7), (7, 5), (5, 1), (1, 2)] :
        List (Nat × Nat)) = l ++ [e] ∧ e.2 = 2) ∧
    (∀ e ∈ ([(2, 4), (4, 8), (8, 7), (7, 5), (5, 1), (1, 2)] :
        List (Nat × Nat)).dropLast, e.2 ≠ 2) :=
  C1_path_stops_at_outer_start 2 2 9 18 true 2
    [(2, 4), (4, 8), (8, 7), (7, 5), (5, 1), (1, 2)] (by decide)

/-- When the multiplier is not coprime to the modulus there is no modular
inverse: the search of `modInverse` fails, as Python's `pow(a, -1, m)`
raises `ValueError` (also for `m = 0`, where Python rejects the zero
modulus). -/
theorem modInverse_eq_none (a m : Nat) (hg : Nat.gcd a m ≠ 1) :
    modInverse a m = none := by
  unfold modInverse
  rw [List.find?_eq_none]
  intro x hx hax
  have hax' : a * x % m = 1 % m := by simpa using hax
  have hxm : x < m := List.mem_range.mp hx
  rcases Nat.lt_or_ge m 2 with hm | hm
  · have hm01 : m = 0 ∨ m = 1 := by omega
    rcases hm01 with rfl | rfl
    · omega
    · exact hg (Nat.gcd_one_right a)
  · rw [Nat.mod_eq_of_lt (show 1 < m by omega)] at hax'
    have hdm := Nat.div_add_mod (a * x) m
    rw [hax'] at hdm
    have d1 : Nat.gcd a m ∣ a * x := (Nat.gcd_dvd_left a m).mul_right x
    have d2 : Nat.gcd a m ∣ m * (a * x / m) :=
      (Nat.gcd_dvd_right a m).mul_right _
    have d3 : Nat.gcd a m ∣ a * x - m * (a * x / m) := Nat.dvd_sub' d1 d2
    have heq : a * x - m * (a * x / m) = 1 := by omega
    rw [heq] at d3
    exact hg (Nat.dvd_one.mp d3)

/-- A successful inverse search returns an element of `[0, m)` whose
product with `a` is `1` modulo `m`. -/
theorem modInverse_spec (a m inv : Nat) (h : modInverse a m = some inv) :
    inv < m ∧ a * inv % m = 1 % m := by
  unfold modInverse at h
  have h1 := List.find?_some h
  have h2 := List.mem_range.mp (List.mem_of_find?_eq_some h)
  exact ⟨h2, by simpa using h1⟩

/-- A multiplier coprime to a modulus of at least 2 has a modular inverse:
the search of `modInverse` succeeds. -/
theorem modInverse_isSome (a m : Nat) (hg : Nat.gcd a m = 1) (hm : 2 ≤ m) :
    ∃ inv, modInverse a m = some inv := by
  obtain ⟨x, hx⟩ := Nat.exists_mul_emod_eq_one_of_coprime hg (by omega)
  cases hfind : modInverse a m with
  | some inv => exact ⟨inv, rfl⟩
  | none =>
    exfalso
    unfold modInverse at hfind
    rw [List.find?_eq_none] at hfind
    have hmem : x % m ∈ List.range m :=
      List.mem_range.mpr (Nat.mod_lt _ (by omega))
    have key : a * (x % m) % m = 1 % m := by
      rw [Nat.mul_mod_mod, hx, Nat.mod_eq_of_lt (by omega)]
    exact hfind (x % m) hmem (by simpa using key)

/-- Claim C5 (amended): for a modulus of at least 2, every point `p` in
`[1, modulus]` and every multiplier invertible modulo the modulus
(`gcd(multiplier, modulus) = 1`), applying the forward step and then the
backward step returns exactly `p`.  The restriction `modulus ≥ 2` is forced
by the counterexample below: with `modulus = 1` the code returns 0. -/
theorem C5_backward_inverts_forward (p mult mo : Nat) (hp1 : 1 ≤ p)
    (hpm : p ≤ mo) (hmo : 2 ≤ mo) (hg : Nat.gcd mult mo = 1) :
    (recurrence_step mult mo true p).bind (recurrence_step mult mo false) =
      some p := by
  obtain ⟨inv, hinv⟩ := modInverse_isSome mult mo hg hmo
  obtain ⟨hinvlt, hinvmod⟩ := modInverse_spec mult mo inv hinv
  have hme : Nat.ModEq mo (mult * inv) 1 := hinvmod
  have h1m : (1 : Nat) % mo = 1 := Nat.mod_eq_of_lt (by omega)
  have hinvmod' : mult * inv % mo = 1 := by rw [hinvmod, h1m]
  have hmult1 : 1 ≤ mult := by
    rcases Nat.eq_zero_or_pos mult with h | h
    · subst h; rw [Nat.gcd_zero_left] at hg; omega
    · exact h
  have hinv1 : 1 ≤ inv := by
    rcases Nat.eq_zero_or_pos inv with h | h
    · subst h; simp [h1m] at hinvmod
    · exact h
  have hpmul : 1 ≤ p * mult := Nat.mul_le_mul hp1 hmult1
  have hq : digital_root (p * mult) mo = (p * mult - 1) % mo + 1 := by
    simp [digital_root, Nat.one_le_iff_ne_zero.mp hpmul]
  have hq1 : 1 ≤ ((p * mult - 1) % mo + 1) * inv :=
    Nat.mul_le_mul (show (1 : Nat) ≤ (p * mult - 1) % mo + 1 by omega) hinv1
  -- congruence chain: ((p*mult-1) % mo + 1) * inv ≡ p [MOD mo]
  have c1 : Nat.ModEq mo ((p * mult - 1) % mo + 1) (p * mult) := by
    have := (Nat.mod_modEq (p * mult - 1) mo).add_right 1
    rwa [Nat.sub_add_cancel hpmul] at this
  have c2 : Nat.ModEq mo (((p * mult - 1) % mo + 1) * inv) (p * mult * inv) :=
    c1.mul_right inv
  have c3 : Nat.ModEq mo (p * mult * inv) p := by
    have := hme.mul_left p
    rwa [← Nat.mul_assoc, Nat.mul_one] at this
  have c4 : Nat.ModEq mo (((p * mult - 1) % mo + 1) * inv) p := c2.trans c3
  have c5 : Nat.ModEq mo (((p * mult - 1) % mo + 1) * inv - 1) (p - 1) := by
    apply Nat.ModEq.add_right_cancel' 1
    rwa [Nat.sub_add_cancel hq1, Nat.sub_add_cancel hp1]
  have c6 : (((p * mult - 1) % mo + 1) * inv - 1) % mo = p - 1 := by
    have : (((p * mult - 1) % mo + 1) * inv - 1) % mo = (p - 1) % mo := c5
    rw [this, Nat.mod_eq_of_lt (by omega)]
  have hfin : digital_root (((p * mult - 1) % mo + 1) * inv) mo =
      (((p * mult - 1) % mo + 1) * inv - 1) % mo + 1 := by
    simp [digital_root, Nat.one_le_iff_ne_zero.mp hq1]
  have hforward : recurrence_step mult mo true p =
      some (digital_root (p * mult) mo) := rfl
  have hbackward : ∀ q, recurrence_step mult mo false q =
      some (digital_root (q * inv) mo) := by
    intro q
    simp [recurrence_step, hinv]
  rw [hforward, Option.some_bind, hbackward, hq]
  simp only [Option.some.injEq]
  rw [hfin, c6]
  omega

/-- Counterexample to claim C5 as stated: with `modulus = 1` the multiplier
1 is invertible (`gcd(1, 1) = 1`; Python's `pow(1, -1, 1)` is 0) and the
point `p = 1` lies in `[1, modulus]`, yet the forward step followed by the
backward step yields 0, not `p`: the backward step multiplies by the
inverse 0 and `digital_root 0 1 = 0`. -/
theorem C5_counterexample :
    Nat.gcd 1 1 = 1 ∧ (1 ≤ 1 ∧ 1 ≤ 1) ∧
    (recurrence_step 1 1 true 1).bind (recurrence_step 1 1 false) =
      some 0 ∧
    some (0 : Nat) ≠ some 1 := by decide

/-- Witness for C5 at `p = 1`, `multiplier = 1`, `modulus = 2`. -/
theorem C5_witness :
    (recurrence_step 1 2 true 1).bind (recurrence_step 1 2 false) =
      some 1 :=
  C5_backward_inverts_forward 1 1 2 (by decide) (by decide) (by decide)
    (by decide)

/-- Claim C6: when the backward direction is requested
(`direction = False`) with a multiplier not invertible modulo the modulus
(`gcd(multiplier, modulus) ≠ 1`), the recurrence step fails with the
`ValueError` of `pow(multiplier, -1, modulus)` (the `NoModularInverse`
failure), and the error is not recovered but propagated: any path
generation running at least one iteration fails, and so does the whole
`plot_modulus_circle` call. -/
theorem C6_no_modular_inverse (mult mo : Nat) (hg : Nat.gcd mult mo ≠ 1)
    (current s iterations seed : Nat) (hit : 1 ≤ iterations)
    (bg fg : String) (rec : Bool) :
    recurrence_step mult mo false current = none ∧
    plot_path s mult mo iterations false seed = none ∧
    plot_modulus_circle bg fg s mult mo iterations false rec = none := by
  have hnone := modInverse_eq_none mult mo hg
  have hstep : ∀ c, recurrence_step mult mo false c = none := by
    intro c
    simp [recurrence_step, hnone]
  have hpath : ∀ pseed, plot_path s mult mo iterations false pseed = none := by
    intro pseed
    obtain ⟨k, rfl⟩ : ∃ k, iterations = k + 1 := ⟨iterations - 1, by omega⟩
    simp [plot_path, plot_path_go, hstep]
  refine ⟨hstep current, hpath seed, ?_⟩
  unfold plot_modulus_circle
  cases hsetup : setup_colors bg fg with
  | none => rfl
  | some palette =>
    dsimp only
    by_cases hpal : palette.isEmpty
    · simp [hpal]
    · simp [hpal, hpath]

/-- Witness for C6 at `multiplier = 2`, `modulus = 4` (gcd 2). -/
theorem C6_witness :
    recurrence_step 2 4 false 1 = none ∧
    plot_path 1 2 4 1 false 1 = none ∧
    plot_modulus_circle "black" "white" 1 2 4 1 false false = none :=
  C6_no_modular_inverse 2 4 (by decide) 1 1 1 1 (by decide) "black" "white"
    false

/-- One recurrence step keeps the current point inside `[1, modulus]`,
provided the multiplier is positive and — in the backward direction — the
modulus is at least 2 (so the modular inverse, when it exists, is
positive). -/
theorem recurrence_step_bounds (mult mo : Nat) (dir : Bool)
    (current next : Nat) (hc1 : 1 ≤ current) (hcm : current ≤ mo)
    (hmult : 1 ≤ mult) (hdir : dir = false → 2 ≤ mo)
    (h : recurrence_step mult mo dir current = some next) :
    1 ≤ next ∧ next ≤ mo := by
  have hmo1 : 1 ≤ mo := by omega
  cases dir with
  | true =>
    simp only [recurrence_step, if_true, Option.some.injEq] at h
    subst h
    exact digital_root_bounds _ mo (Nat.mul_le_mul hc1 hmult) hmo1
  | false =>
    have hmo2 : 2 ≤ mo := hdir rfl
    simp only [recurrence_step, Bool.false_eq_true, if_false] at h
    cases hinv : modInverse mult mo with
    | none => rw [hinv] at h; simp at h
    | some inv =>
      rw [hinv] at h
      simp only [Option.some.injEq] at h
      subst h
      obtain ⟨hlt, hmod⟩ := modInverse_spec mult mo inv hinv
      have hinv1 : 1 ≤ inv := by
        rcases Nat.eq_zero_or_pos inv with h0 | h0
        · subst h0
          rw [Nat.mod_eq_of_lt (show 1 < mo by omega)] at hmod
          simp at hmod
        · exact h0
      exact digital_root_bounds _ mo (Nat.mul_le_mul hc1 hinv1) hmo1

/-- Every edge of a generated path stays inside `[1, modulus]`, by
induction along the loop of `plot_path` (src/vortex.py lines 144-163). -/
theorem plot_path_go_bounds (s mult mo : Nat) (dir : Bool)
    (hmult : 1 ≤ mult) (hdir : dir = false → 2 ≤ mo) :
    ∀ (fuel current : Nat) (es : List (Nat × Nat)),
      1 ≤ current → current ≤ mo →
      plot_path_go s mult mo dir fuel current = some es →
      ∀ e ∈ es, (1 ≤ e.1 ∧ e.1 ≤ mo) ∧ (1 ≤ e.2 ∧ e.2 ≤ mo) := by
  intro fuel
  induction fuel with
  | zero =>
    intro current es _ _ h
    simp only [plot_path_go, Option.some.injEq] at h
    subst h
    simp
  | succ k ih =>
    intro current es hc1 hcm h
    unfold plot_path_go at h
    cases hstep : recurrence_step mult mo dir current with
    | none => rw [hstep] at h; simp at h
    | some next =>
      rw [hstep] at h
      dsimp only at h
      obtain ⟨hn1, hnm⟩ :=
        recurrence_step_bounds mult mo dir current next hc1 hcm hmult hdir
          hstep
      by_cases hns : next = s
      · rw [if_pos hns] at h
        simp only [Option.some.injEq] at h
        subst h
        intro e he
        simp only [List.mem_singleton] at he
        subst he
        exact ⟨⟨hc1, hcm⟩, hn1, hnm⟩
      · rw [if_neg hns] at h
        cases hgo : plot_path_go s mult mo dir k next with
        | none => rw [hgo] at h; simp at h
        | some rest =>
          rw [hgo] at h
          simp only [Option.map_some', Option.some.injEq] at h
          subst h
          intro e he
          rcases List.mem_cons.mp he with rfl | hmem
          · exact ⟨⟨hc1, hcm⟩, hn1, hnm⟩
          · exact ih next rest hn1 hnm hgo e hmem

/-- Claim C7 (amended): during path generation with a positive multiplier,
a seed in `[1, modulus]`, and — in the backward direction — a modulus of at
least 2, every point index appearing in an emitted edge (hence every index
used for an angle lookup or a recurrence step) lies in `[1, modulus]`, and
0 is never produced.  The backward restriction `modulus ≥ 2` is forced by
the counterexample below: with `modulus = 1` the inverse is 0 and the point
0 is produced. -/
theorem C7_points_in_range (s mult mo iterations seed : Nat) (dir : Bool)
    (es : List (Nat × Nat)) (hseed1 : 1 ≤ seed) (hseedm : seed ≤ mo)
    (hmult : 1 ≤ mult) (hdir : dir = false → 2 ≤ mo)
    (h : plot_path s mult mo iterations dir seed = some es) :
    ∀ e ∈ es, (1 ≤ e.1 ∧ e.1 ≤ mo) ∧ (1 ≤ e.2 ∧ e.2 ≤ mo) :=
  plot_path_go_bounds s mult mo dir hmult hdir iterations seed es hseed1
    hseedm h

/-- Counterexample to claim C7 as stated: in the backward direction with
`modulus = 1`, `multiplier = 1` (invertible: `gcd(1,1) = 1`) and seed 1,
the single generated edge is `(1, 0)` — the point 0 is produced as a next
point, outside `[1, modulus]`, because Python's `pow(1, -1, 1)` is 0 and
`digital_root(0, 1) = 0`. -/
theorem C7_counterexample :
    plot_path 1 1 1 1 false 1 = some [(1, 0)] ∧
    ¬ (1 ≤ (0 : Nat) ∧ (0 : Nat) ≤ 1) := by decide

/-- Witness for C7 on the forward path `1 → 3 → 4 → 2 → 1` modulo 5,
instantiated at its first edge `(1, 3)`. -/
theorem C7_witness :
    (1 ≤ ((1, 3) : Nat × Nat).1 ∧ ((1, 3) : Nat × Nat).1 ≤ 5) ∧
    (1 ≤ ((1, 3) : Nat × Nat).2 ∧ ((1, 3) : Nat × Nat).2 ≤ 5) :=
  C7_points_in_range 1 3 5 10 1 true [(1, 3), (3, 4), (4, 2), (2, 1)]
    (by decide) (by decide) (by decide) (by simp) (by decide)
    (1, 3) (by decide)

/-- `from_points` distributes over concatenation of path collections. -/
theorem from_points_append (a b : List (List (Nat × Nat))) :
    from_points (a ++ b) = from_points a ++ from_points b := by
  simp [from_points]

/-- With a positive iteration budget, the first emitted edge of a path
starts at its seed. -/
theorem plot_path_head (s mult mo iterations : Nat) (dir : Bool)
    (seed : Nat) (es : List (Nat × Nat)) (hit : 1 ≤ iterations)
    (h : plot_path s mult mo iterations dir seed = some es) :
    ∃ n rest, es = (seed, n) :: rest := by
  obtain ⟨k, rfl⟩ : ∃ k, iterations = k + 1 := ⟨iterations - 1, by omega⟩
  unfold plot_path plot_path_go at h
  cases hstep : recurrence_step mult mo dir seed with
  | none => rw [hstep] at h; simp at h
  | some next =>
    rw [hstep] at h
    dsimp only at h
    by_cases hns : next = s
    · rw [if_pos hns] at h
      simp only [Option.some.injEq] at h
      exact ⟨next, [], h.symm⟩
    · rw [if_neg hns] at h
      cases hgo : plot_path_go s mult mo dir k next with
      | none => rw [hgo] at h; simp at h
      | some rest =>
        rw [hgo] at h
        simp only [Option.map_some', Option.some.injEq] at h
        exact ⟨next, rest, h.symm⟩

/-- The recursive-coverage loop (src/vortex.py lines 170-176) only appends
paths to the accumulator; with a positive iteration budget, each appended
path is nonempty and its first edge starts at a seed different from
`modulus`. -/
theorem recurse_paths_structure (s mult mo iterations : Nat) (dir : Bool)
    (hit : 1 ≤ iterations) :
    ∀ (l : List Nat) (acc res : List (List (Nat × Nat))),
      recurse_paths s mult mo iterations dir l acc = some res →
      ∃ extra, res = acc ++ extra ∧
        ∀ es ∈ extra, ∃ q n rest, q ≠ mo ∧ es = (q, n) :: rest := by
  intro l
  induction l with
  | nil =>
    intro acc res h
    simp only [recurse_paths, Option.some.injEq] at h
    exact ⟨[], by simp [h.symm], by simp⟩
  | cons point rest ih =>
    intro acc res h
    unfold recurse_paths at h
    by_cases hcond : point ∉ from_points acc ∧ point ≠ mo
    · rw [if_pos hcond] at h
      cases hpp : plot_path s mult mo iterations dir point with
      | none => rw [hpp] at h; simp at h
      | some edges =>
        rw [hpp] at h
        dsimp only at h
        obtain ⟨extra, hres, hprop⟩ := ih (acc ++ [edges]) res h
        obtain ⟨n, rest', hhead⟩ :=
          plot_path_head s mult mo iterations dir point edges hit hpp
        refine ⟨[edges] ++ extra, by simp [hres], ?_⟩
        intro es hes
        rcases List.mem_append.mp hes with h1 | h2
        · simp only [List.mem_singleton] at h1
          subst h1
          exact ⟨point, n, rest', hcond.2, hhead⟩
        · exact hprop es h2
    · rw [if_neg hcond] at h
      exact ih acc res h

/-- Every point of the remaining range other than `modulus` ends up a
source point of the final collection: it is either already one when its
turn comes, or it seeds a fresh path whose first edge starts at it. -/
theorem recurse_paths_coverage (s mult mo iterations : Nat) (dir : Bool)
    (hit : 1 ≤ iterations) :
    ∀ (l : List Nat) (acc res : List (List (Nat × Nat))),
      recurse_paths s mult mo iterations dir l acc = some res →
      ∀ p ∈ l, p ≠ mo → p ∈ from_points res := by
  intro l
  induction l with
  | nil =>
    intro acc res h p hp
    simp at hp
  | cons point rest ih =>
    intro acc res h p hp hpm
    unfold recurse_paths at h
    by_cases hcond : point ∉ from_points acc ∧ point ≠ mo
    · rw [if_pos hcond] at h
      cases hpp : plot_path s mult mo iterations dir point with
      | none => rw [hpp] at h; simp at h
      | some edges =>
        rw [hpp] at h
        dsimp only at h
        rcases List.mem_cons.mp hp with rfl | hprest
        · obtain ⟨extra, hres, _⟩ :=
            recurse_paths_structure s mult mo iterations dir hit rest
              (acc ++ [edges]) res h
          obtain ⟨n, rest', hhead⟩ :=
            plot_path_head s mult mo iterations dir p edges hit hpp
          subst hres
          rw [from_points_append, from_points_append]
          apply List.mem_append_left
          apply List.mem_append_right
          simp [from_points, hhead]
        · exact ih (acc ++ [edges]) res h p hprest hpm
    · rw [if_neg hcond] at h
      rcases List.mem_cons.mp hp with rfl | hprest
      · have hin : p ∈ from_points acc := by
          by_contra hnotin
          exact hcond ⟨hnotin, hpm⟩
        obtain ⟨extra, hres, _⟩ :=
          recurse_paths_structure s mult mo iterations dir hit rest acc res h
        subst hres
        rw [from_points_append]
        exact List.mem_append_left _ hin
      · exact ih acc res h p hprest hpm

/-- Claim C2: after `plot_modulus_circle` runs with `recursive=True` (and a
positive iteration budget, spec section 7 assuming positive numeric
inputs), every point in `[1, modulus-1]` appears as a `from_point` of at
least one emitted edge; and the point `modulus` is exempt: no recursively
seeded path (the paths after the initial one) starts at `modulus`. -/
theorem C2_recursive_coverage (bg fg : String) (s mult mo iterations : Nat)
    (dir : Bool) (paths : List (List (Nat × Nat))) (hit : 1 ≤ iterations)
    (h : plot_modulus_circle bg fg s mult mo iterations dir true =
      some paths) :
    (∀ p, 1 ≤ p → p ≤ mo - 1 → p ∈ from_points paths) ∧
    (∀ es ∈ paths.tail, es.head?.map Prod.fst ≠ some mo) := by
  unfold plot_modulus_circle at h
  cases hsetup : setup_colors bg fg with
  | none => rw [hsetup] at h; simp at h
  | some palette =>
    rw [hsetup] at h
    dsimp only at h
    by_cases hpal : palette.isEmpty = true
    · rw [if_pos hpal] at h; simp at h
    · rw [if_neg hpal] at h
      cases hfirst : plot_path s mult mo iterations dir s with
      | none => rw [hfirst] at h; simp at h
      | some first =>
        rw [hfirst] at h
        dsimp only at h
        constructor
        · intro p hp1 hpm1
          have hpmem : p ∈ List.range' 1 mo :=
            List.mem_range'_1.mpr ⟨hp1, by omega⟩
          exact recurse_paths_coverage s mult mo iterations dir hit
            (List.range' 1 mo) [first] paths h p hpmem (by omega)
        · obtain ⟨extra, hres, hprop⟩ :=
            recurse_paths_structure s mult mo iterations dir hit
              (List.range' 1 mo) [first] paths h
          intro es hes
          have hex : es ∈ extra := by
            rw [hres] at hes
            simpa using hes
          obtain ⟨q, n, rest', hq, rfl⟩ := hprop es hex
          simp [hq]

/-- Witness for C2: `plot_modulus_circle("black", "white", start=1,
multiplier=2, modulus=2, iterations=1, forward, recursive)` generates the
single path `[(1, 2)]`, and point 1 is covered. -/
theorem C2_witness :
    (∀ p, 1 ≤ p → p ≤ 2 - 1 → p ∈ from_points [[(1, 2)]]) ∧
    (∀ es ∈ ([[(1, 2)]] : List (List (Nat × Nat))).tail,
      es.head?.map Prod.fst ≠ some 2) :=
  C2_recursive_coverage "black" "white" 1 2 2 1 true [[(1, 2)]]
    (by decide) (by decide)

/-- The loop of `filter_colors` is `List.filter` on the luminance band. -/
theorem filter_colors_eq_filter (l : List String) (lo hi : Nat) :
    filter_colors l lo hi =
      l.filter fun c => decide (lo ≤ luminance c ∧ luminance c ≤ hi) := by
  have key : ∀ (ll : List String) (acc : List String),
      ll.foldl (fun filtered color_name =>
        if lo ≤ luminance color_name ∧ luminance color_name ≤ hi then
          filtered ++ [color_name]
        else filtered) acc =
      acc ++ ll.filter
        fun c => decide (lo ≤ luminance c ∧ luminance c ≤ hi) := by
    intro ll
    induction ll with
    | nil => intro acc; simp
    | cons c cs ih =>
      intro acc
      simp only [List.foldl_cons]
      by_cases hc : lo ≤ luminance c ∧ luminance c ≤ hi
      · rw [if_pos hc, ih, List.filter_cons_of_pos (by simpa using hc)]
        simp
      · rw [if_neg hc, ih, List.filter_cons_of_neg (by simpa using hc)]
  simpa [filter_colors] using key l []

/-- Claim C9: `filter_colors(colors, low, high)` retains a color if and
only if its perceived luminance `0.2126*R + 0.7152*G + 0.0722*B` satisfies
`low ≤ luminance ≤ high` (all values carrying the exact `2550000` scaling
of the embedding); the output is the order-preserving sublist of retained
colors, so input order is preserved; the function is pure, matching the
side-effect-free Python loop; and with the default thresholds every color
of the output has luminance within `[0.3, 0.7]`
(scaled: `[765000, 1785000]`). -/
theorem C9_filter_colors_spec (l : List String) (lo hi : Nat) :
    (∀ c, c ∈ filter_colors l lo hi ↔
      c ∈ l ∧ lo ≤ luminance c ∧ luminance c ≤ hi) ∧
    (filter_colors l lo hi).Sublist l ∧
    (∀ c ∈ filter_colors l 765000 1785000,
      765000 ≤ luminance c ∧ luminance c ≤ 1785000) := by
  refine ⟨?_, ?_, ?_⟩
  · intro c
    rw [filter_colors_eq_filter]
    simp [List.mem_filter]
  · rw [filter_colors_eq_filter]
    exact List.filter_sublist l
  · intro c hc
    rw [filter_colors_eq_filter] at hc
    simpa using (List.mem_filter.mp hc).2

/-- Witness for C9 on a small palette: only `gray` survives the default
band. -/
theorem C9_witness :
    (∀ c, c ∈ filter_colors ["black", "gray", "white"] 765000 1785000 ↔
      c ∈ ["black", "gray", "white"] ∧
        765000 ≤ luminance c ∧ luminance c ≤ 1785000) ∧
    (filter_colors ["black", "gray", "white"] 765000 1785000).Sublist
      ["black", "gray", "white"] ∧
    (∀ c ∈ filter_colors ["black", "gray", "white"] 765000 1785000,
      765000 ≤ luminance c ∧ luminance c ≤ 1785000) :=
  C9_filter_colors_spec ["black", "gray", "white"] 765000 1785000

/-- The hardcoded color list contains no duplicate names. -/
theorem color_list_nodup : color_list.Nodup := by decide

/-- Claim C8: whenever the palette setup succeeds, neither the background
color nor the text color is a member of the resulting arc palette: both
are removed from the (duplicate-free) color list before the luminance
filter, and the filter only keeps elements of its input. -/
theorem C8_palette_excludes (bg fg : String) (palette : List String)
    (h : setup_colors bg fg = some palette) :
    bg ∉ palette ∧ fg ∉ palette := by
  unfold setup_colors list_remove at h
  by_cases hbg : bg ∈ color_list
  · rw [if_pos hbg] at h
    dsimp only at h
    by_cases hfg : fg ∈ color_list.erase bg
    · rw [if_pos hfg] at h
      dsimp only at h
      simp only [Option.some.injEq] at h
      subst h
      have hsub : ∀ c,
          c ∈ filter_colors ((color_list.erase bg).erase fg)
            765000 1785000 →
          c ∈ (color_list.erase bg).erase fg := by
        intro c hc
        rw [filter_colors_eq_filter] at hc
        exact List.mem_of_mem_filter hc
      have hnodup1 : (color_list.erase bg).Nodup :=
        color_list_nodup.erase bg
      constructor
      · intro hmem
        have h1 : bg ∈ (color_list.erase bg).erase fg := hsub bg hmem
        have h2 : bg ∈ color_list.erase bg := List.mem_of_mem_erase h1
        exact ((List.Nodup.mem_erase_iff color_list_nodup).mp h2).1 rfl
      · intro hmem
        have h1 : fg ∈ (color_list.erase bg).erase fg := hsub fg hmem
        exact ((List.Nodup.mem_erase_iff hnodup1).mp h1).1 rfl
    · rw [if_neg hfg] at h
      simp at h
  · rw [if_neg hbg] at h
    simp at h

/-- Witness for C8 with the default background and text colors. -/
theorem C8_witness :
    "black" ∉ (setup_colors "black" "white").getD [] ∧
    "white" ∉ (setup_colors "black" "white").getD [] :=
  C8_palette_excludes "black" "white"
    ((setup_colors "black" "white").getD []) (by decide)

/-- Claim C10: when the background color is not one of the 147 hardcoded
names, or the text color is not (the second `remove` searches the list
after the background removal), `plot_modulus_circle` fails with
`list.remove`'s `ValueError` before any path is generated — the result is
`none` for every choice of the path parameters — even though such a color
(a hex string, say) may be perfectly renderable. -/
theorem C10_unlisted_color_fails (bg fg : String)
    (hcolor : bg ∉ color_list ∨ fg ∉ color_list)
    (s mult mo iterations : Nat) (dir recursive : Bool) :
    setup_colors bg fg = none ∧
    plot_modulus_circle bg fg s mult mo iterations dir recursive = none := by
  have hsetup : setup_colors bg fg = none := by
    unfold setup_colors list_remove
    rcases hcolor with hbg | hfg
    · rw [if_neg hbg]
    · by_cases hbg2 : bg ∈ color_list
      · rw [if_pos hbg2]
        dsimp only
        have hfg2 : fg ∉ color_list.erase bg := fun hmem =>
          hfg (List.mem_of_mem_erase hmem)
        rw [if_neg hfg2]
      · rw [if_neg hbg2]
  refine ⟨hsetup, ?_⟩
  unfold plot_modulus_circle
  rw [hsetup]

/-- Witness for C10 with a renderable but unlisted hex background color. -/
theorem C10_witness :
    setup_colors "#123456" "white" = none ∧
    plot_modulus_circle "#123456" "white" 1 7 100 100 true true = none :=
  C10_unlisted_color_fails "#123456" "white" (Or.inl (by decide))
    1 7 100 100 true true

